import Mathlib

/-
Verification of the mortgage amortization engine (PartA_Mortgage/mortgage.py).

The Python class MortgagePayment is embedded shallowly over the real numbers:
floating point arithmetic is idealised as exact real arithmetic, Python round
with two digits is idealised as round half to even on the reals, and the
while loop of the schedule builder is modelled by structural recursion on the
remaining iteration budget, which is exact because the loop counter k is
incremented on every iteration and the guard bounds it by nmax + 2.
-/

open scoped Classical

/-- Python round to an integer, ties to even, idealised on the reals. -/
noncomputable def rnd (x : ℝ) : ℤ :=
  if x - ⌊x⌋ < 1/2 then ⌊x⌋
  else if 1/2 < x - ⌊x⌋ then ⌊x⌋ + 1
  else if Even ⌊x⌋ then ⌊x⌋ else ⌊x⌋ + 1

/-- Python round(x, 2), idealised on the reals. -/
noncomputable def round2 (x : ℝ) : ℝ := (rnd (x * 100) : ℝ) / 100

/-- Source _ear_from_semiannual: j = quoted/100, EAR = (1 + j/2)^2 - 1. -/
noncomputable def ear_from_semiannual (q : ℝ) : ℝ := (1 + q / 100 / 2) ^ 2 - 1

/-- Source _periodic_rate: (1 + EAR) ** (1 / payments_per_year) - 1. -/
noncomputable def periodic_rate (q : ℝ) (ppy : ℕ) : ℝ :=
  (1 + ear_from_semiannual q) ^ ((1 : ℝ) / (ppy : ℝ)) - 1

/-- Source _annuity_payment: principal / n when r = 0, else the annuity formula
principal * (r / (1 - (1 + r) ** (-n))). -/
noncomputable def annuity_payment (principal r : ℝ) (n : ℤ) : ℝ :=
  if r = 0 then principal / (n : ℝ)
  else principal * (r / (1 - (1 + r) ^ (-n)))

/-- One emitted schedule row: Period, Starting Balance, Interest, Payment,
Ending Balance, monetary fields rounded to two decimals as in the source. -/
structure Row where
  period : ℕ
  startBal : ℝ
  interest : ℝ
  payment : ℝ
  endBal : ℝ

instance : Inhabited Row := ⟨⟨0, 0, 0, 0, 0⟩⟩

/-- The body of one iteration of the while loop in _schedule: given the rate i,
the scheduled payment, the running balance and the number k of rows already
emitted, produce the emitted row and the new balance. -/
noncomputable def rowOf (i pay bal : ℝ) (k : ℕ) : Row × ℝ :=
  let interest := bal * i
  let pc := pay - interest
  let pc2 := if bal < pc then bal else pc
  let payEff := if bal < pc then interest + bal else pay
  let bal2 := bal - pc2
  ({ period := k + 1, startBal := round2 bal, interest := round2 interest,
     payment := round2 payEff, endBal := round2 bal2 }, bal2)

/-- The while loop of _schedule: while bal > 1e-6 and k < nmax + 2. The fuel
argument is nmax + 2 - k, so the recursion is exactly the source loop. -/
noncomputable def sgo (i pay : ℝ) : ℕ → ℕ → ℝ → List Row
  | 0, _, _ => []
  | fuel + 1, k, bal =>
    if 1e-6 < bal then
      (rowOf i pay bal k).1 :: sgo i pay fuel (k + 1) (rowOf i pay bal k).2
    else []

/-- Source clamp limit_years = max(1, min(years_limit, amort_years)). -/
def clampYears (y a : ℤ) : ℤ := max 1 (min y a)

/-- Source _schedule(principal, payments_per_year, payment_amount, years_limit)
on a MortgagePayment with quoted rate q and amortization a. -/
noncomputable def scheduleRows (q : ℝ) (a : ℤ) (p : ℝ) (ppy : ℕ) (pay : ℝ)
    (y : ℤ) : List Row :=
  sgo (periodic_rate q ppy) pay ((clampYears y a * (ppy : ℤ)).toNat + 2) 0 p

/-- The six payment amounts returned by payments(principal). -/
structure PaymentSet where
  monthly : ℝ
  semiMonthly : ℝ
  biWeekly : ℝ
  weekly : ℝ
  accelBiWeekly : ℝ
  accelWeekly : ℝ

/-- Source payments(principal) on a MortgagePayment with quoted rate q and
amortization a: four independently annuitized amounts and two accelerated
amounts derived from the unrounded monthly amount, all rounded to cents. -/
noncomputable def payments (q : ℝ) (a : ℤ) (p : ℝ) : PaymentSet :=
  let monthly := annuity_payment p (periodic_rate q 12) (a * 12)
  let semiMonthly := annuity_payment p (periodic_rate q 24) (a * 24)
  let biWeekly := annuity_payment p (periodic_rate q 26) (a * 26)
  let weekly := annuity_payment p (periodic_rate q 52) (a * 52)
  { monthly := round2 monthly, semiMonthly := round2 semiMonthly,
    biWeekly := round2 biWeekly, weekly := round2 weekly,
    accelBiWeekly := round2 (monthly / 2), accelWeekly := round2 (monthly / 4) }

/-- The six schedules returned by schedules(principal, years). -/
structure ScheduleSet where
  monthly : List Row
  semiMonthly : List Row
  biWeekly : List Row
  weekly : List Row
  accelBiWeekly : List Row
  accelWeekly : List Row

/-- Source schedules(principal, years), with years already resolved from its
None default (the source substitutes term_years, which itself defaults to
amort_years). -/
noncomputable def schedules (q : ℝ) (a : ℤ) (p : ℝ) (y : ℤ) : ScheduleSet :=
  let yl := clampYears y a
  let P := payments q a p
  { monthly := scheduleRows q a p 12 P.monthly yl,
    semiMonthly := scheduleRows q a p 24 P.semiMonthly yl,
    biWeekly := scheduleRows q a p 26 P.biWeekly yl,
    weekly := scheduleRows q a p 52 P.weekly yl,
    accelBiWeekly := scheduleRows q a p 26 P.accelBiWeekly yl,
    accelWeekly := scheduleRows q a p 52 P.accelWeekly yl }

/-- Sound lower and upper interval step for the balance recurrence
bal := bal * (1 + r) - pay, over integers scaled by 10^8 for balances and by
10^13 for rates. The lower endpoint uses integer floor division, the upper
endpoint adds one unit to dominate the rounding. -/
def istepI (rlo rhi pay : ℤ) (s : ℤ × ℤ) : ℤ × ℤ :=
  (s.1 + s.1 * rlo / 10000000000000 - pay,
   s.2 + s.2 * rhi / 10000000000000 + 1 - pay)

/-- Iterated interval step. -/
def iiterI (rlo rhi pay : ℤ) : ℕ → ℤ × ℤ → ℤ × ℤ
  | 0, s => s
  | n + 1, s => iiterI rlo rhi pay n (istepI rlo rhi pay s)

/-- Checks along n interval steps that the lower balance endpoint stays above
the 1e-6 loop threshold and that the scheduled payment does not exceed the
lower endpoint grown by one period of interest, which rules out the final
period clamp for these n iterations. -/
def icheckI (rlo rhi pay : ℤ) : ℕ → ℤ × ℤ → Bool
  | 0, _ => true
  | n + 1, s =>
    (decide (100 < s.1) &&
      decide (pay * 10000000000000 ≤ s.1 * (10000000000000 + rlo))) &&
      icheckI rlo rhi pay n (istepI rlo rhi pay s)

/-- The exact real balance recurrence of the schedule loop in its no-clamp
regime. -/
def rIter (i pay : ℝ) : ℕ → ℝ → ℝ
  | 0, b => b
  | n + 1, b => rIter i pay n (b * (1 + i) - pay)

/-- Single pass combining the per-step checks of icheckI with final bounds
lo and hi on the interval after n steps. The intermediate states are forced
to integer literals through the Int.ofNat match, which keeps kernel
reduction shallow. -/
def ibound (rlo rhi pay lo hi : ℤ) : ℕ → ℤ → ℤ → Bool
  | 0, a, b => decide (lo ≤ a) && decide (b ≤ hi)
  | n + 1, a, b =>
    (decide (100 < a) &&
      decide (pay * 10000000000000 ≤ a * (10000000000000 + rlo))) &&
      match a + a * rlo / 10000000000000 - pay,
          b + b * rhi / 10000000000000 + 1 - pay with
      | Int.ofNat a2, Int.ofNat b2 =>
          ibound rlo rhi pay lo hi n (Int.ofNat a2) (Int.ofNat b2)
      | _, _ => false

lemma floor_le_rnd (x : ℝ) : ⌊x⌋ ≤ rnd x := by
  unfold rnd; split_ifs <;> omega

lemma rnd_le_floor_add_one (x : ℝ) : rnd x ≤ ⌊x⌋ + 1 := by
  unfold rnd; split_ifs <;> omega

lemma le_rnd (x : ℝ) : x - 1/2 ≤ (rnd x : ℝ) := by
  have h1 := Int.floor_le x
  have h2 := Int.lt_floor_add_one x
  unfold rnd
  split_ifs <;> push_cast <;> linarith

lemma rnd_le (x : ℝ) : (rnd x : ℝ) ≤ x + 1/2 := by
  have h1 := Int.floor_le x
  have h2 := Int.lt_floor_add_one x
  unfold rnd
  split_ifs <;> push_cast <;> linarith

lemma rnd_nonneg {x : ℝ} (h : 0 ≤ x) : 0 ≤ rnd x := by
  have h1 : (0 : ℤ) ≤ ⌊x⌋ := Int.le_floor.mpr (by exact_mod_cast h)
  have h2 := floor_le_rnd x
  omega

lemma rnd_mono {x y : ℝ} (h : x ≤ y) : rnd x ≤ rnd y := by
  have hf : ⌊x⌋ ≤ ⌊y⌋ := Int.le_floor.mpr (le_trans (Int.floor_le x) h)
  rcases lt_or_eq_of_le hf with hlt | heq
  · have h1 := rnd_le_floor_add_one x
    have h2 := floor_le_rnd y
    omega
  · unfold rnd
    rw [← heq]
    split_ifs <;> first | omega | linarith | tauto

lemma rnd_eq_of_lt {x : ℝ} {m : ℤ} (h1 : (m : ℝ) ≤ x) (h2 : x < m + 1/2) :
    rnd x = m := by
  have hm : ⌊x⌋ = m := Int.floor_eq_iff.mpr ⟨h1, by push_cast; linarith⟩
  unfold rnd
  rw [hm, if_pos (show x - (m : ℝ) < 1/2 by linarith)]

lemma rnd_eq_of_gt {x : ℝ} {m : ℤ} (h1 : (m : ℝ) + 1/2 < x) (h2 : x < m + 1) :
    rnd x = m + 1 := by
  have hm : ⌊x⌋ = m := Int.floor_eq_iff.mpr ⟨by linarith, by push_cast; linarith⟩
  unfold rnd
  rw [hm, if_neg (show ¬ x - (m : ℝ) < 1/2 by push_cast; linarith),
    if_pos (show (1 : ℝ)/2 < x - m by push_cast; linarith)]

lemma rnd_tie_even {x : ℝ} {m : ℤ} (h : x = (m : ℝ) + 1/2) (he : Even m) :
    rnd x = m := by
  have hm : ⌊x⌋ = m := Int.floor_eq_iff.mpr ⟨by linarith, by push_cast; linarith⟩
  unfold rnd
  rw [hm, if_neg (show ¬ x - (m : ℝ) < 1/2 by push_cast; linarith),
    if_neg (show ¬ (1 : ℝ)/2 < x - m by push_cast; linarith), if_pos he]

lemma round2_le (x : ℝ) : round2 x ≤ x + 1/200 := by
  have := rnd_le (x * 100)
  unfold round2
  linarith

lemma le_round2 (x : ℝ) : x - 1/200 ≤ round2 x := by
  have := le_rnd (x * 100)
  unfold round2
  linarith

lemma round2_mono {x y : ℝ} (h : x ≤ y) : round2 x ≤ round2 y := by
  have h1 : rnd (x * 100) ≤ rnd (y * 100) := rnd_mono (by linarith)
  have h2 : ((rnd (x * 100) : ℤ) : ℝ) ≤ ((rnd (y * 100) : ℤ) : ℝ) := by
    exact_mod_cast h1
  unfold round2
  linarith

lemma round2_nonneg {x : ℝ} (h : 0 ≤ x) : 0 ≤ round2 x := by
  have h1 : (0 : ℤ) ≤ rnd (x * 100) := rnd_nonneg (by linarith)
  have h2 : (0 : ℝ) ≤ ((rnd (x * 100) : ℤ) : ℝ) := by exact_mod_cast h1
  unfold round2
  linarith

lemma round2_zero : round2 0 = 0 := by
  unfold round2
  rw [show (0 : ℝ) * 100 = ((0 : ℤ) : ℝ) by norm_num]
  rw [rnd_eq_of_lt (le_refl _) (by norm_num)]
  norm_num

lemma round2_eq_of_lt {x : ℝ} {m : ℤ} (h1 : (m : ℝ) ≤ x * 100)
    (h2 : x * 100 < m + 1/2) : round2 x = m / 100 := by
  unfold round2
  rw [rnd_eq_of_lt h1 h2]

lemma round2_eq_of_gt {x : ℝ} {m : ℤ} (h1 : (m : ℝ) + 1/2 < x * 100)
    (h2 : x * 100 < m + 1) : round2 x = ((m : ℝ) + 1) / 100 := by
  unfold round2
  rw [rnd_eq_of_gt h1 h2]
  push_cast
  ring

lemma round2_tie_even {x : ℝ} {m : ℤ} (h : x * 100 = (m : ℝ) + 1/2)
    (he : Even m) : round2 x = m / 100 := by
  unfold round2
  rw [rnd_tie_even h he]

lemma round2_dist {a b : ℝ} (h : |a - b| ≤ 1/400) :
    |round2 a - round2 b| ≤ 1/100 := by
  have hab := abs_le.mp h
  have e1 := rnd_le (a * 100)
  have e2 := le_rnd (a * 100)
  have e3 := rnd_le (b * 100)
  have e4 := le_rnd (b * 100)
  have h1 : ((rnd (a * 100) - rnd (b * 100) : ℤ) : ℝ) < 2 := by
    push_cast
    linarith
  have h2 : (-2 : ℝ) < ((rnd (a * 100) - rnd (b * 100) : ℤ) : ℝ) := by
    push_cast
    linarith
  have h3 : rnd (a * 100) - rnd (b * 100) < 2 := by exact_mod_cast h1
  have h4 : (-2 : ℤ) < rnd (a * 100) - rnd (b * 100) := by exact_mod_cast h2
  have h5 : |((rnd (a * 100) - rnd (b * 100) : ℤ) : ℝ)| ≤ 1 := by
    rw [abs_le]
    constructor <;> [exact_mod_cast (by omega : (-1 : ℤ) ≤ _);
      exact_mod_cast (by omega : rnd (a * 100) - rnd (b * 100) ≤ 1)]
  have h6 : round2 a - round2 b = ((rnd (a * 100) - rnd (b * 100) : ℤ) : ℝ) / 100 := by
    unfold round2
    push_cast
    ring
  rw [h6, abs_div]
  rw [show |(100 : ℝ)| = 100 by norm_num]
  linarith [h5]

lemma intCast_div_le {n m : ℤ} (hm : 0 < m) :
    ((n / m : ℤ) : ℝ) ≤ (n : ℝ) / (m : ℝ) := by
  have h1 : m * (n / m) + n % m = n := Int.ediv_add_emod n m
  have h2 : (0 : ℤ) ≤ n % m := Int.emod_nonneg n (ne_of_gt hm)
  have hmR : (0 : ℝ) < (m : ℝ) := by exact_mod_cast hm
  rw [le_div_iff hmR]
  have h1R : (m : ℝ) * ((n / m : ℤ) : ℝ) + ((n % m : ℤ) : ℝ) = (n : ℝ) := by
    exact_mod_cast congrArg (Int.cast : ℤ → ℝ) h1
  have h2R : (0 : ℝ) ≤ ((n % m : ℤ) : ℝ) := by exact_mod_cast h2
  nlinarith [h1R, h2R]

lemma div_lt_intCast_add_one {n m : ℤ} (hm : 0 < m) :
    (n : ℝ) / (m : ℝ) < ((n / m : ℤ) : ℝ) + 1 := by
  have h1 : m * (n / m) + n % m = n := Int.ediv_add_emod n m
  have h2 : n % m < m := Int.emod_lt_of_pos n hm
  have hmR : (0 : ℝ) < (m : ℝ) := by exact_mod_cast hm
  rw [div_lt_iff hmR]
  have h1R : (m : ℝ) * ((n / m : ℤ) : ℝ) + ((n % m : ℤ) : ℝ) = (n : ℝ) := by
    exact_mod_cast congrArg (Int.cast : ℤ → ℝ) h1
  have h2R : ((n % m : ℤ) : ℝ) < (m : ℝ) := by exact_mod_cast h2
  nlinarith [h1R, h2R]

lemma istepI_sound {rlo rhi pay : ℤ} {r payR bal : ℝ} {s : ℤ × ℤ}
    (h0 : 0 ≤ rlo) (h1 : (rlo : ℝ) / 10^13 ≤ r) (h2 : r ≤ (rhi : ℝ) / 10^13)
    (h3 : payR = (pay : ℝ) / 10^8) (hs1 : 0 ≤ s.1)
    (hlo : (s.1 : ℝ) / 10^8 ≤ bal) (hhi : bal ≤ (s.2 : ℝ) / 10^8) :
    ((istepI rlo rhi pay s).1 : ℝ) / 10^8 ≤ bal * (1 + r) - payR ∧
      bal * (1 + r) - payR ≤ ((istepI rlo rhi pay s).2 : ℝ) / 10^8 := by
  have hrlo0R : (0 : ℝ) ≤ (rlo : ℝ) := by exact_mod_cast h0
  have hrloD : (0 : ℝ) ≤ (rlo : ℝ) / 10^13 := by positivity
  have hr0 : 0 ≤ r := le_trans hrloD h1
  have hs1R : (0 : ℝ) ≤ (s.1 : ℝ) := by exact_mod_cast hs1
  have hbal0 : 0 ≤ bal := le_trans (by positivity) hlo
  have hs2R : 0 ≤ (s.2 : ℝ) / 10^8 := le_trans hbal0 hhi
  constructor
  · have k1 : ((s.1 * rlo / 10000000000000 : ℤ) : ℝ) ≤
        ((s.1 * rlo : ℤ) : ℝ) / ((10000000000000 : ℤ) : ℝ) :=
      intCast_div_le (by norm_num)
    have k2 : ((s.1 * rlo : ℤ) : ℝ) / ((10000000000000 : ℤ) : ℝ) =
        (s.1 : ℝ) * (rlo : ℝ) / 10^13 := by push_cast; norm_num
    have k3 : (s.1 : ℝ) / 10^8 * ((rlo : ℝ) / 10^13) ≤ bal * r :=
      mul_le_mul hlo h1 hrloD hbal0
    have k3a : (s.1 : ℝ) * (rlo : ℝ) / 10^21 ≤ bal * r := by
      have e : (s.1 : ℝ) / 10^8 * ((rlo : ℝ) / 10^13) =
          (s.1 : ℝ) * (rlo : ℝ) / 10^21 := by ring
      linarith [e ▸ k3]
    show ((s.1 + s.1 * rlo / 10000000000000 - pay : ℤ) : ℝ) / 10^8 ≤
      bal * (1 + r) - payR
    rw [h3]
    push_cast
    rw [k2] at k1
    nlinarith [k1, k3a, hlo]
  · have k1 : ((s.2 * rhi : ℤ) : ℝ) / ((10000000000000 : ℤ) : ℝ) <
        ((s.2 * rhi / 10000000000000 : ℤ) : ℝ) + 1 :=
      div_lt_intCast_add_one (by norm_num)
    have k2 : ((s.2 * rhi : ℤ) : ℝ) / ((10000000000000 : ℤ) : ℝ) =
        (s.2 : ℝ) * (rhi : ℝ) / 10^13 := by push_cast; norm_num
    have k3 : bal * r ≤ (s.2 : ℝ) / 10^8 * ((rhi : ℝ) / 10^13) :=
      mul_le_mul hhi h2 hr0 hs2R
    have k3a : bal * r ≤ (s.2 : ℝ) * (rhi : ℝ) / 10^21 := by
      have e : (s.2 : ℝ) / 10^8 * ((rhi : ℝ) / 10^13) =
          (s.2 : ℝ) * (rhi : ℝ) / 10^21 := by ring
      linarith [e ▸ k3]
    show bal * (1 + r) - payR ≤
      ((s.2 + s.2 * rhi / 10000000000000 + 1 - pay : ℤ) : ℝ) / 10^8
    rw [h3]
    push_cast
    rw [k2] at k1
    nlinarith [k1, k3a, hhi]

lemma sgo_cons {i pay bal : ℝ} (fuel k : ℕ) (h : (1e-6 : ℝ) < bal) :
    sgo i pay (fuel + 1) k bal =
      (rowOf i pay bal k).1 :: sgo i pay fuel (k + 1) (rowOf i pay bal k).2 := by
  rw [sgo, if_pos h]

lemma sgo_nil {i pay bal : ℝ} (h : ¬ (1e-6 : ℝ) < bal) (fuel k : ℕ) :
    sgo i pay fuel k bal = [] := by
  cases fuel with
  | zero => rfl
  | succ f => rw [sgo, if_neg h]

lemma rowOf_snd (i pay bal : ℝ) (k : ℕ) :
    (rowOf i pay bal k).2 =
      bal - (if bal < pay - bal * i then bal else pay - bal * i) := rfl

lemma rowOf_fst_period (i pay bal : ℝ) (k : ℕ) :
    (rowOf i pay bal k).1.period = k + 1 := rfl

lemma rowOf_fst_startBal (i pay bal : ℝ) (k : ℕ) :
    (rowOf i pay bal k).1.startBal = round2 bal := rfl

lemma rowOf_fst_endBal (i pay bal : ℝ) (k : ℕ) :
    (rowOf i pay bal k).1.endBal = round2 ((rowOf i pay bal k).2) := rfl

lemma rowOf_fst_payment (i pay bal : ℝ) (k : ℕ) :
    (rowOf i pay bal k).1.payment =
      round2 (if bal < pay - bal * i then bal * i + bal else pay) := rfl

lemma rowOf_snd_noclamp {i pay bal : ℝ} (k : ℕ) (h : ¬ bal < pay - bal * i) :
    (rowOf i pay bal k).2 = bal * (1 + i) - pay := by
  rw [rowOf_snd, if_neg h]
  ring

lemma rowOf_snd_clamp {i pay bal : ℝ} (k : ℕ) (h : bal < pay - bal * i) :
    (rowOf i pay bal k).2 = 0 := by
  rw [rowOf_snd, if_pos h]
  ring

lemma rowOf_snd_nonneg (i pay bal : ℝ) (k : ℕ) : 0 ≤ (rowOf i pay bal k).2 := by
  rw [rowOf_snd]
  split_ifs with h
  · simp
  · linarith [not_lt.mp h]

lemma iiterI_succ (rlo rhi pay : ℤ) : ∀ (n : ℕ) (s : ℤ × ℤ),
    iiterI rlo rhi pay (n + 1) s =
      istepI rlo rhi pay (iiterI rlo rhi pay n s) := by
  intro n
  induction n with
  | zero => intro s; rfl
  | succ m IH =>
    intro s
    rw [show iiterI rlo rhi pay (m + 1 + 1) s =
        iiterI rlo rhi pay (m + 1) (istepI rlo rhi pay s) from rfl, IH]
    rfl

lemma sgo_run {i pay : ℝ} (rlo rhi payI : ℤ)
    (h0 : 0 ≤ rlo) (h1 : (rlo : ℝ) / 10^13 ≤ i) (h2 : i ≤ (rhi : ℝ) / 10^13)
    (h3 : pay = (payI : ℝ) / 10^8) :
    ∀ (n fuel k : ℕ) (bal : ℝ) (s : ℤ × ℤ), n ≤ fuel →
      icheckI rlo rhi payI n s = true →
      (s.1 : ℝ) / 10^8 ≤ bal → bal ≤ (s.2 : ℝ) / 10^8 →
      ∃ rows : List Row,
        sgo i pay fuel k bal =
          rows ++ sgo i pay (fuel - n) (k + n) (rIter i pay n bal) ∧
        rows.length = n ∧
        ((iiterI rlo rhi payI n s).1 : ℝ) / 10^8 ≤ rIter i pay n bal ∧
        rIter i pay n bal ≤ ((iiterI rlo rhi payI n s).2 : ℝ) / 10^8 := by
  intro n
  induction n with
  | zero =>
    intro fuel k bal s _ _ hlo hhi
    exact ⟨[], by simp [rIter], rfl, hlo, hhi⟩
  | succ n IH =>
    intro fuel k bal s hnf hchk hlo hhi
    obtain ⟨f, rfl⟩ : ∃ f, fuel = f + 1 := ⟨fuel - 1, by omega⟩
    rw [icheckI] at hchk
    simp only [Bool.and_eq_true, decide_eq_true_eq] at hchk
    obtain ⟨⟨hc1, hc2⟩, hc3⟩ := hchk
    have hs1 : (0 : ℤ) ≤ s.1 := by omega
    have hs1R : (100 : ℝ) < (s.1 : ℝ) := by exact_mod_cast hc1
    have hbal : (1e-6 : ℝ) < bal := by
      have e : (1e-6 : ℝ) = 100 / 10^8 := by norm_num
      rw [e]
      have : (100 : ℝ) / 10^8 < (s.1 : ℝ) / 10^8 := by linarith
      linarith
    have hbal0 : 0 ≤ bal := by
      have : (0 : ℝ) < (s.1 : ℝ) / 10^8 := by linarith
      linarith
    have hc2R : (payI : ℝ) * 10^13 ≤ (s.1 : ℝ) * (10^13 + (rlo : ℝ)) := by
      exact_mod_cast hc2
    have hrlo0R : (0 : ℝ) ≤ (rlo : ℝ) := by exact_mod_cast h0
    have hnc : ¬ bal < pay - bal * i := by
      rw [not_lt]
      have k1 : (s.1 : ℝ) / 10^8 * ((rlo : ℝ) / 10^13) ≤ bal * i :=
        mul_le_mul hlo h1 (div_nonneg hrlo0R (by norm_num)) hbal0
      rw [h3]
      nlinarith [k1, hc2R, hlo]
    have hstep := istepI_sound h0 h1 h2 h3 hs1 hlo hhi
    have hrec := IH f (k + 1) (bal * (1 + i) - pay) (istepI rlo rhi payI s)
      (by omega) hc3 hstep.1 hstep.2
    obtain ⟨rows, he, hlen, hb1, hb2⟩ := hrec
    refine ⟨(rowOf i pay bal k).1 :: rows, ?_, by simp [hlen], ?_, ?_⟩
    · rw [sgo_cons f k hbal, rowOf_snd_noclamp k hnc, he]
      have e1 : f + 1 - (n + 1) = f - n := by omega
      have e2 : k + (n + 1) = k + 1 + n := by omega
      rw [e1, e2]
      rfl
    · exact hb1
    · exact hb2

lemma one_add_ear_five : 1 + ear_from_semiannual 5 = 1.050625 := by
  unfold ear_from_semiannual
  norm_num

lemma pr512_eq : periodic_rate 5 12 = (1.050625 : ℝ) ^ ((1 : ℝ)/12) - 1 := by
  unfold periodic_rate
  rw [show (1 + ear_from_semiannual 5) = (1.050625 : ℝ) from one_add_ear_five]
  norm_num

lemma twelfth_root_lo {c : ℝ} (hc : 0 ≤ c) (h : c ^ (12 : ℕ) ≤ (1.050625 : ℝ)) :
    c ≤ (1.050625 : ℝ) ^ ((1 : ℝ)/12) := by
  have e : c = (c ^ (12 : ℕ) : ℝ) ^ ((1 : ℝ)/12) := by
    rw [← Real.rpow_natCast c 12, ← Real.rpow_mul hc]
    norm_num
  conv_lhs => rw [e]
  exact Real.rpow_le_rpow (by positivity) h (by norm_num)

lemma twelfth_root_hi {c : ℝ} (hc : 0 ≤ c) (h : (1.050625 : ℝ) ≤ c ^ (12 : ℕ)) :
    (1.050625 : ℝ) ^ ((1 : ℝ)/12) ≤ c := by
  have e : c = (c ^ (12 : ℕ) : ℝ) ^ ((1 : ℝ)/12) := by
    rw [← Real.rpow_natCast c 12, ← Real.rpow_mul hc]
    norm_num
  conv_rhs => rw [e]
  exact Real.rpow_le_rpow (by norm_num) h (by norm_num)

lemma pr512_lo : (41239154651 : ℝ) / 10^13 ≤ periodic_rate 5 12 := by
  rw [pr512_eq]
  have h := twelfth_root_lo (c := 1 + 41239154651 / 10^13)
    (by norm_num) (by norm_num)
  linarith

lemma pr512_hi : periodic_rate 5 12 ≤ (41239154652 : ℝ) / 10^13 := by
  rw [pr512_eq]
  have h := twelfth_root_hi (c := 1 + 41239154652 / 10^13)
    (by norm_num) (by norm_num)
  linarith

lemma pr512_pos : 0 < periodic_rate 5 12 :=
  lt_of_lt_of_le (by norm_num) pr512_lo

lemma pow300_eq :
    (1 + periodic_rate 5 12) ^ (300 : ℕ) = (1.050625 : ℝ) ^ (25 : ℕ) := by
  have e : 1 + periodic_rate 5 12 = (1.050625 : ℝ) ^ ((1 : ℝ)/12) := by
    rw [pr512_eq]; ring
  rw [e, ← Real.rpow_natCast ((1.050625 : ℝ) ^ ((1 : ℝ)/12)) 300,
    ← Real.rpow_mul (by norm_num : (0 : ℝ) ≤ 1.050625),
    show ((1 : ℝ)/12) * ((300 : ℕ) : ℝ) = ((25 : ℕ) : ℝ) by norm_num,
    Real.rpow_natCast]

lemma annuity_monthly_eq :
    annuity_payment 300000 (periodic_rate 5 12) (25 * 12) =
      300000 * (periodic_rate 5 12 / (1 - ((1.050625 : ℝ) ^ (25 : ℕ))⁻¹)) := by
  unfold annuity_payment
  rw [if_neg (ne_of_gt pr512_pos),
    show ((25 * 12 : ℤ)) = ((300 : ℕ) : ℤ) by norm_num, zpow_neg, zpow_natCast,
    pow300_eq]

lemma annuity_monthly_lo :
    (1744.81 : ℝ) ≤ annuity_payment 300000 (periodic_rate 5 12) (25 * 12) := by
  rw [annuity_monthly_eq]
  have key : (1744.81 : ℝ) ≤
      300000 * ((41239154651 / 10^13 : ℝ) /
        (1 - ((1.050625 : ℝ) ^ (25 : ℕ))⁻¹)) := by norm_num
  have h2 : (41239154651 / 10^13 : ℝ) /
      (1 - ((1.050625 : ℝ) ^ (25 : ℕ))⁻¹) ≤
      periodic_rate 5 12 / (1 - ((1.050625 : ℝ) ^ (25 : ℕ))⁻¹) := by
    gcongr
    linarith [pr512_lo]
  linarith

lemma annuity_monthly_hi :
    annuity_payment 300000 (periodic_rate 5 12) (25 * 12) < 1744.815 := by
  rw [annuity_monthly_eq]
  have key : 300000 * ((41239154652 / 10^13 : ℝ) /
      (1 - ((1.050625 : ℝ) ^ (25 : ℕ))⁻¹)) < 1744.815 := by norm_num
  have h2 : periodic_rate 5 12 / (1 - ((1.050625 : ℝ) ^ (25 : ℕ))⁻¹) ≤
      (41239154652 / 10^13 : ℝ) / (1 - ((1.050625 : ℝ) ^ (25 : ℕ))⁻¹) := by
    gcongr
    linarith [pr512_hi]
  linarith

lemma monthly_disclosed : (payments 5 25 300000).monthly = 1744.81 := by
  show round2 (annuity_payment 300000 (periodic_rate 5 12) (25 * 12)) = 1744.81
  have h1 := annuity_monthly_lo
  have h2 := annuity_monthly_hi
  rw [round2_eq_of_lt (m := 174481) (by push_cast; linarith)
    (by push_cast; linarith)]
  norm_num


lemma ibound_spec (rlo rhi pay lo hi : ℤ) : ∀ (n : ℕ) (a b : ℤ),
    ibound rlo rhi pay lo hi n a b = true →
    icheckI rlo rhi pay n (a, b) = true ∧
    lo ≤ (iiterI rlo rhi pay n (a, b)).1 ∧
    (iiterI rlo rhi pay n (a, b)).2 ≤ hi := by
  intro n
  induction n with
  | zero =>
    intro a b h
    simp only [ibound, Bool.and_eq_true, decide_eq_true_eq] at h
    exact ⟨rfl, h.1, h.2⟩
  | succ m IH =>
    intro a b h
    simp only [ibound, Bool.and_eq_true, decide_eq_true_eq] at h
    obtain ⟨⟨h1, h2⟩, h3⟩ := h
    split at h3
    next a2 b2 ha hb =>
      have hstep : istepI rlo rhi pay (a, b) = (Int.ofNat a2, Int.ofNat b2) := by
        show (a + a * rlo / 10000000000000 - pay,
          b + b * rhi / 10000000000000 + 1 - pay) = _
        rw [ha, hb]
      have hrec := IH (Int.ofNat a2) (Int.ofNat b2) h3
      have hiter : iiterI rlo rhi pay (m + 1) (a, b) =
          iiterI rlo rhi pay m (Int.ofNat a2, Int.ofNat b2) := by
        show iiterI rlo rhi pay m (istepI rlo rhi pay (a, b)) = _
        rw [hstep]
      refine ⟨?_, ?_, ?_⟩
      · show ((decide (100 < a) &&
          decide (pay * 10000000000000 ≤ a * (10000000000000 + rlo))) &&
          icheckI rlo rhi pay m (istepI rlo rhi pay (a, b))) = true
        rw [hstep]
        simp only [Bool.and_eq_true, decide_eq_true_eq]
        exact ⟨⟨h1, h2⟩, hrec.1⟩
      · rw [hiter]
        exact hrec.2.1
      · rw [hiter]
        exact hrec.2.2
    next => simp at h3

set_option maxRecDepth 8000

lemma getD_append_len (l1 l2 : List Row) (n : ℕ) :
    (l1 ++ l2).getD (l1.length + n) default = l2.getD n default := by
  induction l1 with
  | nil => simp
  | cons a t IH =>
    rw [show ((a :: t).length + n) = (t.length + n) + 1 by simp; omega]
    simpa using IH

lemma pay_le_grow {bal i pay lo rlo : ℝ} (hlo : lo ≤ bal) (hrlo : rlo ≤ i)
    (h1 : 0 ≤ lo) (h2 : 0 ≤ rlo) (hkey : pay ≤ lo * (1 + rlo)) :
    ¬ bal < pay - bal * i := by
  rw [not_lt]
  have k1 : lo * rlo ≤ bal * i := mul_le_mul hlo hrlo h2 (le_trans h1 hlo)
  nlinarith [k1, hlo]

lemma clamp_of_bounds {bal i pay hi rhi : ℝ} (hhi : bal ≤ hi) (hrhi : i ≤ rhi)
    (hbal0 : 0 ≤ bal) (hi0 : 0 ≤ i) (hkey : hi * (1 + rhi) < pay) :
    bal < pay - bal * i := by
  have k1 : bal * i ≤ hi * rhi := mul_le_mul hhi hrhi hi0 (le_trans hbal0 hhi)
  nlinarith [k1, hhi]

lemma c1_run299 : ibound 41239154651 41239154652 174481000000
    174056038779 174056040590 299 30000000000000 30000000000000 = true := by
  decide

lemma c1_run300 : ibound 41239154651 41239154652 174481000000
    292831169 292832988 300 30000000000000 30000000000000 = true := by
  decide

lemma c1_schedule :
    (schedules 5 25 300000 25).monthly.length = 301 ∧
    ((schedules 5 25 300000 25).monthly.getD 299 default).endBal = 2.93 ∧
    ((schedules 5 25 300000 25).monthly.getD 300 default).endBal = 0 := by
  have e0 : (schedules 5 25 300000 25).monthly =
      scheduleRows 5 25 300000 12 ((payments 5 25 300000).monthly)
        (clampYears 25 25) := rfl
  have efuel : ((clampYears (clampYears 25 25) 25 * ((12 : ℕ) : ℤ)).toNat + 2) = 302 := by
    decide
  have e1 : (schedules 5 25 300000 25).monthly =
      sgo (periodic_rate 5 12) 1744.81 302 0 300000 := by
    rw [e0, monthly_disclosed]
    unfold scheduleRows
    rw [efuel]
  have h0 : (0 : ℤ) ≤ 41239154651 := by norm_num
  have h1 : ((41239154651 : ℤ) : ℝ) / 10^13 ≤ periodic_rate 5 12 := by
    push_cast
    exact pr512_lo
  have h2 : periodic_rate 5 12 ≤ ((41239154652 : ℤ) : ℝ) / 10^13 := by
    push_cast
    exact pr512_hi
  have h3 : (1744.81 : ℝ) = ((174481000000 : ℤ) : ℝ) / 10^8 := by norm_num
  obtain ⟨hchk299, d1, d2⟩ := ibound_spec 41239154651 41239154652 174481000000
    174056038779 174056040590 299 30000000000000 30000000000000 c1_run299
  obtain ⟨-, d3, d4⟩ := ibound_spec 41239154651 41239154652 174481000000
    292831169 292832988 300 30000000000000 30000000000000 c1_run300
  have hrun := sgo_run 41239154651 41239154652 174481000000 h0 h1 h2 h3
    299 302 0 300000 (30000000000000, 30000000000000) (by norm_num) hchk299
    (by norm_num) (by norm_num)
  obtain ⟨rows, he, hlen, hbl, hbh⟩ := hrun
  rw [show (302 : ℕ) - 299 = 3 from by norm_num,
    show (0 : ℕ) + 299 = 299 from by norm_num] at he
  set i := periodic_rate 5 12 with hidef
  obtain ⟨bal299, hbal⟩ : ∃ x : ℝ, rIter i 1744.81 299 300000 = x := ⟨_, rfl⟩
  rw [hbal] at hbl hbh he
  have d1R : (174056038779 : ℝ) / 10^8 ≤ bal299 := by
    refine le_trans ?_ hbl
    have hcast : ((174056038779 : ℤ) : ℝ) ≤
        ((iiterI 41239154651 41239154652 174481000000 299
          (30000000000000, 30000000000000)).1 : ℝ) := by exact_mod_cast d1
    push_cast at hcast
    linarith
  have d2R : bal299 ≤ (174056040590 : ℝ) / 10^8 := by
    refine le_trans hbh ?_
    have hcast : ((iiterI 41239154651 41239154652 174481000000 299
        (30000000000000, 30000000000000)).2 : ℝ) ≤
        ((174056040590 : ℤ) : ℝ) := by exact_mod_cast d2
    push_cast at hcast
    linarith
  have hpos299 : (1e-6 : ℝ) < bal299 := by
    have : (1e-6 : ℝ) < (174056038779 : ℝ) / 10^8 := by norm_num
    linarith
  have hi_lo : (41239154651 : ℝ) / 10^13 ≤ i := pr512_lo
  have hi_hi : i ≤ (41239154652 : ℝ) / 10^13 := pr512_hi
  have hi_pos : 0 < i := pr512_pos
  have hnc300 : ¬ bal299 < 1744.81 - bal299 * i :=
    pay_le_grow d1R hi_lo (by norm_num) (by norm_num) (by norm_num)
  have hstep := istepI_sound (s := iiterI 41239154651 41239154652 174481000000
      299 (30000000000000, 30000000000000)) h0 h1 h2 h3 (by omega) hbl hbh
  rw [← iiterI_succ] at hstep
  obtain ⟨bal300, hbal300⟩ : ∃ x : ℝ, bal299 * (1 + i) - 1744.81 = x := ⟨_, rfl⟩
  rw [hbal300] at hstep
  have d3R : (292831169 : ℝ) / 10^8 ≤ bal300 := by
    refine le_trans ?_ hstep.1
    have hcast : ((292831169 : ℤ) : ℝ) ≤
        ((iiterI 41239154651 41239154652 174481000000 300
          (30000000000000, 30000000000000)).1 : ℝ) := by exact_mod_cast d3
    push_cast at hcast
    linarith
  have d4R : bal300 ≤ (292832988 : ℝ) / 10^8 := by
    refine le_trans hstep.2 ?_
    have hcast : ((iiterI 41239154651 41239154652 174481000000 300
        (30000000000000, 30000000000000)).2 : ℝ) ≤
        ((292832988 : ℤ) : ℝ) := by exact_mod_cast d4
    push_cast at hcast
    linarith
  have hpos300 : (1e-6 : ℝ) < bal300 := by
    have : (1e-6 : ℝ) < (292831169 : ℝ) / 10^8 := by norm_num
    linarith
  have hcl301 : bal300 < 1744.81 - bal300 * i :=
    clamp_of_bounds d4R hi_hi (by linarith) (le_of_lt hi_pos) (by norm_num)
  rw [sgo_cons 2 299 hpos299, rowOf_snd_noclamp 299 hnc300, hbal300,
    sgo_cons 1 300 hpos300, rowOf_snd_clamp 300 hcl301,
    sgo_nil (by norm_num) 1 301] at he
  have hrow300 : (rowOf i 1744.81 bal299 299).1.endBal = 2.93 := by
    rw [rowOf_fst_endBal, rowOf_snd_noclamp 299 hnc300, hbal300]
    have g1 : (292 : ℝ) + 1/2 < bal300 * 100 := by
      linarith [d3R]
    have g2 : bal300 * 100 < 292 + 1 := by
      linarith [d4R]
    rw [round2_eq_of_gt (m := 292) (by push_cast; linarith)
      (by push_cast; linarith)]
    norm_num
  have hrow301 : (rowOf i 1744.81 bal300 300).1.endBal = 0 := by
    rw [rowOf_fst_endBal, rowOf_snd_clamp 300 hcl301, round2_zero]
  refine ⟨?_, ?_, ?_⟩
  · rw [e1, he]
    simp [hlen]
  · rw [e1, he]
    have hg := getD_append_len rows
      ((rowOf i 1744.81 bal299 299).1 :: (rowOf i 1744.81 bal300 300).1 :: []) 0
    rw [hlen] at hg
    rw [show (299 : ℕ) + 0 = 299 from rfl] at hg
    rw [hg, List.getD_cons_zero]
    exact hrow300
  · rw [e1, he]
    have hg := getD_append_len rows
      ((rowOf i 1744.81 bal299 299).1 :: (rowOf i 1744.81 bal300 300).1 :: []) 1
    rw [hlen] at hg
    rw [show (299 : ℕ) + 1 = 300 from rfl] at hg
    rw [hg, List.getD_cons_succ, List.getD_cons_zero]
    exact hrow301

lemma sgo_zero (i pay : ℝ) (k : ℕ) (bal : ℝ) : sgo i pay 0 k bal = [] := rfl

lemma c2_run61 : ibound 41239154651 41239154652 174481000000
    26487304194985 26487304195246 61 30000000000000 30000000000000 = true := by
  decide

lemma c2_run62 : ibound 41239154651 41239154652 174481000000
    26422054598383 26422054598649 62 30000000000000 30000000000000 = true := by
  decide

lemma c2_schedule :
    (schedules 5 25 300000 5).monthly.length = 62 ∧
    0 < ((schedules 5 25 300000 5).monthly.getD 61 default).endBal ∧
    ((schedules 5 25 300000 5).monthly.getD 61 default).endBal < 300000 := by
  have e0 : (schedules 5 25 300000 5).monthly =
      scheduleRows 5 25 300000 12 ((payments 5 25 300000).monthly)
        (clampYears 5 25) := rfl
  have efuel : ((clampYears (clampYears 5 25) 25 * ((12 : ℕ) : ℤ)).toNat + 2) = 62 := by
    decide
  have e1 : (schedules 5 25 300000 5).monthly =
      sgo (periodic_rate 5 12) 1744.81 62 0 300000 := by
    rw [e0, monthly_disclosed]
    unfold scheduleRows
    rw [efuel]
  have h0 : (0 : ℤ) ≤ 41239154651 := by norm_num
  have h1 : ((41239154651 : ℤ) : ℝ) / 10^13 ≤ periodic_rate 5 12 := by
    push_cast
    exact pr512_lo
  have h2 : periodic_rate 5 12 ≤ ((41239154652 : ℤ) : ℝ) / 10^13 := by
    push_cast
    exact pr512_hi
  have h3 : (1744.81 : ℝ) = ((174481000000 : ℤ) : ℝ) / 10^8 := by norm_num
  obtain ⟨hchk61, d1, d2⟩ := ibound_spec 41239154651 41239154652 174481000000
    26487304194985 26487304195246 61 30000000000000 30000000000000 c2_run61
  obtain ⟨-, d3, d4⟩ := ibound_spec 41239154651 41239154652 174481000000
    26422054598383 26422054598649 62 30000000000000 30000000000000 c2_run62
  have hrun := sgo_run 41239154651 41239154652 174481000000 h0 h1 h2 h3
    61 62 0 300000 (30000000000000, 30000000000000) (by norm_num) hchk61
    (by norm_num) (by norm_num)
  obtain ⟨rows, he, hlen, hbl, hbh⟩ := hrun
  rw [show (62 : ℕ) - 61 = 1 from by norm_num,
    show (0 : ℕ) + 61 = 61 from by norm_num] at he
  set i := periodic_rate 5 12 with hidef
  obtain ⟨bal61, hbal⟩ : ∃ x : ℝ, rIter i 1744.81 61 300000 = x := ⟨_, rfl⟩
  rw [hbal] at hbl hbh he
  have d1R : (26487304194985 : ℝ) / 10^8 ≤ bal61 := by
    refine le_trans ?_ hbl
    have hcast : ((26487304194985 : ℤ) : ℝ) ≤
        ((iiterI 41239154651 41239154652 174481000000 61
          (30000000000000, 30000000000000)).1 : ℝ) := by exact_mod_cast d1
    push_cast at hcast
    linarith
  have hpos61 : (1e-6 : ℝ) < bal61 := by
    have : (1e-6 : ℝ) < (26487304194985 : ℝ) / 10^8 := by norm_num
    linarith
  have hi_lo : (41239154651 : ℝ) / 10^13 ≤ i := pr512_lo
  have hnc62 : ¬ bal61 < 1744.81 - bal61 * i :=
    pay_le_grow d1R hi_lo (by norm_num) (by norm_num) (by norm_num)
  have hstep := istepI_sound (s := iiterI 41239154651 41239154652 174481000000
      61 (30000000000000, 30000000000000)) h0 h1 h2 h3 (by omega) hbl hbh
  rw [← iiterI_succ] at hstep
  obtain ⟨bal62, hbal62⟩ : ∃ x : ℝ, bal61 * (1 + i) - 1744.81 = x := ⟨_, rfl⟩
  rw [hbal62] at hstep
  have d3R : (26422054598383 : ℝ) / 10^8 ≤ bal62 := by
    refine le_trans ?_ hstep.1
    have hcast : ((26422054598383 : ℤ) : ℝ) ≤
        ((iiterI 41239154651 41239154652 174481000000 62
          (30000000000000, 30000000000000)).1 : ℝ) := by exact_mod_cast d3
    push_cast at hcast
    linarith
  have d4R : bal62 ≤ (26422054598649 : ℝ) / 10^8 := by
    refine le_trans hstep.2 ?_
    have hcast : ((iiterI 41239154651 41239154652 174481000000 62
        (30000000000000, 30000000000000)).2 : ℝ) ≤
        ((26422054598649 : ℤ) : ℝ) := by exact_mod_cast d4
    push_cast at hcast
    linarith
  rw [sgo_cons 0 61 hpos61, rowOf_snd_noclamp 61 hnc62, hbal62, sgo_zero] at he
  have hrow62lo : 0 < (rowOf i 1744.81 bal61 61).1.endBal := by
    rw [rowOf_fst_endBal, rowOf_snd_noclamp 61 hnc62, hbal62]
    have := le_round2 bal62
    linarith [d3R]
  have hrow62hi : (rowOf i 1744.81 bal61 61).1.endBal < 300000 := by
    rw [rowOf_fst_endBal, rowOf_snd_noclamp 61 hnc62, hbal62]
    have := round2_le bal62
    linarith [d4R]
  refine ⟨?_, ?_, ?_⟩
  · rw [e1, he]
    simp [hlen]
  · rw [e1, he]
    have hg := getD_append_len rows ((rowOf i 1744.81 bal61 61).1 :: []) 0
    rw [hlen] at hg
    rw [show (61 : ℕ) + 0 = 61 from rfl] at hg
    rw [hg, List.getD_cons_zero]
    exact hrow62lo
  · rw [e1, he]
    have hg := getD_append_len rows ((rowOf i 1744.81 bal61 61).1 :: []) 0
    rw [hlen] at hg
    rw [show (61 : ℕ) + 0 = 61 from rfl] at hg
    rw [hg, List.getD_cons_zero]
    exact hrow62hi

lemma sgo_length_le (i pay : ℝ) : ∀ (fuel k : ℕ) (bal : ℝ),
    (sgo i pay fuel k bal).length ≤ fuel := by
  intro fuel
  induction fuel with
  | zero =>
    intro k bal
    rw [sgo_zero]
    simp
  | succ f IH =>
    intro k bal
    by_cases hb : (1e-6 : ℝ) < bal
    · rw [sgo_cons f k hb]
      simp only [List.length_cons]
      exact Nat.succ_le_succ (IH (k + 1) _)
    · rw [sgo_nil hb]
      simp

lemma sgo_endBal_nonneg (i pay : ℝ) : ∀ (fuel k : ℕ) (bal : ℝ) (r : Row),
    r ∈ sgo i pay fuel k bal → 0 ≤ r.endBal := by
  intro fuel
  induction fuel with
  | zero =>
    intro k bal r h
    rw [sgo_zero] at h
    exact absurd h (List.not_mem_nil r)
  | succ f IH =>
    intro k bal r h
    by_cases hb : (1e-6 : ℝ) < bal
    · rw [sgo_cons f k hb] at h
      rcases List.mem_cons.mp h with h1 | h2
      · rw [h1, rowOf_fst_endBal]
        exact round2_nonneg (rowOf_snd_nonneg i pay bal k)
      · exact IH (k + 1) _ r h2
    · rw [sgo_nil hb] at h
      exact absurd h (List.not_mem_nil r)

lemma sgo_period_get (i pay : ℝ) : ∀ (fuel k : ℕ) (bal : ℝ) (j : ℕ) (r : Row),
    (sgo i pay fuel k bal).get? j = some r → r.period = k + j + 1 := by
  intro fuel
  induction fuel with
  | zero =>
    intro k bal j r h
    rw [sgo_zero] at h
    simp at h
  | succ f IH =>
    intro k bal j r h
    by_cases hb : (1e-6 : ℝ) < bal
    · rw [sgo_cons f k hb] at h
      cases j with
      | zero =>
        simp only [List.get?_cons_zero, Option.some.injEq] at h
        rw [← h, rowOf_fst_period]
      | succ j2 =>
        simp only [List.get?_cons_succ] at h
        have := IH (k + 1) _ j2 r h
        omega
    · rw [sgo_nil hb] at h
      simp at h

lemma sgo_head (i pay : ℝ) : ∀ (fuel k : ℕ) (bal : ℝ) (r : Row),
    (sgo i pay fuel k bal).get? 0 = some r →
    r.startBal = round2 bal ∧ r.endBal = round2 ((rowOf i pay bal k).2) := by
  intro fuel
  cases fuel with
  | zero =>
    intro k bal r h
    rw [sgo_zero] at h
    simp at h
  | succ f =>
    intro k bal r h
    by_cases hb : (1e-6 : ℝ) < bal
    · rw [sgo_cons f k hb] at h
      simp only [List.get?_cons_zero, Option.some.injEq] at h
      rw [← h]
      exact ⟨rowOf_fst_startBal i pay bal k, rowOf_fst_endBal i pay bal k⟩
    · rw [sgo_nil hb] at h
      simp at h

lemma rowOf_snd_le {i pay bal : ℝ} (k : ℕ) (hi : 0 ≤ i) (hbal : 0 ≤ bal)
    (hpay : bal * i ≤ pay) : (rowOf i pay bal k).2 ≤ bal := by
  rw [rowOf_snd]
  split_ifs with hcond
  · linarith
  · linarith

lemma sgo_chain (i pay : ℝ) (hi : 0 ≤ i) : ∀ (fuel k : ℕ) (bal : ℝ),
    bal * i ≤ pay →
    ∀ (j : ℕ) (r1 r2 : Row), (sgo i pay fuel k bal).get? j = some r1 →
    (sgo i pay fuel k bal).get? (j + 1) = some r2 →
    r2.startBal = r1.endBal ∧ r2.endBal ≤ r1.endBal := by
  intro fuel
  induction fuel with
  | zero =>
    intro k bal _ j r1 r2 h1 _
    rw [sgo_zero] at h1
    simp at h1
  | succ f IH =>
    intro k bal hpay j r1 r2 h1 h2
    by_cases hb : (1e-6 : ℝ) < bal
    · rw [sgo_cons f k hb] at h1 h2
      have hbal0 : 0 ≤ bal := by
        have : (0 : ℝ) < 1e-6 := by norm_num
        linarith
      have hbal2le : (rowOf i pay bal k).2 ≤ bal :=
        rowOf_snd_le k hi hbal0 hpay
      have h0bal2 : 0 ≤ (rowOf i pay bal k).2 := rowOf_snd_nonneg i pay bal k
      have hpay2 : (rowOf i pay bal k).2 * i ≤ pay := by
        have := mul_le_mul_of_nonneg_right hbal2le hi
        linarith
      cases j with
      | zero =>
        simp only [List.get?_cons_zero, Option.some.injEq] at h1
        simp only [List.get?_cons_succ] at h2
        obtain ⟨hs, he2⟩ := sgo_head i pay f (k + 1) ((rowOf i pay bal k).2) r2 h2
        constructor
        · rw [hs, ← h1, rowOf_fst_endBal]
        · rw [he2, ← h1, rowOf_fst_endBal]
          exact round2_mono (rowOf_snd_le (k + 1) hi h0bal2 hpay2)
      | succ j2 =>
        simp only [List.get?_cons_succ] at h1 h2
        exact IH (k + 1) _ hpay2 j2 r1 r2 h1 h2
    · rw [sgo_nil hb] at h1
      simp at h1

lemma sgo_chain_start (i pay : ℝ) : ∀ (fuel k : ℕ) (bal : ℝ),
    ∀ (j : ℕ) (r1 r2 : Row), (sgo i pay fuel k bal).get? j = some r1 →
    (sgo i pay fuel k bal).get? (j + 1) = some r2 →
    r2.startBal = r1.endBal := by
  intro fuel
  induction fuel with
  | zero =>
    intro k bal j r1 r2 h1 _
    rw [sgo_zero] at h1
    simp at h1
  | succ f IH =>
    intro k bal j r1 r2 h1 h2
    by_cases hb : (1e-6 : ℝ) < bal
    · rw [sgo_cons f k hb] at h1 h2
      cases j with
      | zero =>
        simp only [List.get?_cons_zero, Option.some.injEq] at h1
        simp only [List.get?_cons_succ] at h2
        obtain ⟨hs, -⟩ := sgo_head i pay f (k + 1) ((rowOf i pay bal k).2) r2 h2
        rw [hs, ← h1, rowOf_fst_endBal]
      | succ j2 =>
        simp only [List.get?_cons_succ] at h1 h2
        exact IH (k + 1) _ j2 r1 r2 h1 h2
    · rw [sgo_nil hb] at h1
      simp at h1

lemma sgo_stop (i pay : ℝ) : ∀ (fuel k : ℕ) (bal : ℝ),
    (sgo i pay fuel k bal).length = fuel ∨
    ∀ m : ℕ, sgo i pay (fuel + m) k bal = sgo i pay fuel k bal := by
  intro fuel
  induction fuel with
  | zero =>
    intro k bal
    left
    rw [sgo_zero]
    rfl
  | succ f IH =>
    intro k bal
    by_cases hb : (1e-6 : ℝ) < bal
    · rcases IH (k + 1) ((rowOf i pay bal k).2) with h | h
      · left
        rw [sgo_cons f k hb]
        simp [h]
      · right
        intro m
        rw [show f + 1 + m = (f + m) + 1 from by omega, sgo_cons (f + m) k hb,
          sgo_cons f k hb, h m]
    · right
      intro m
      rw [sgo_nil hb, sgo_nil hb]

lemma ear_nonneg {q : ℝ} (hq : 0 ≤ q) : 0 ≤ ear_from_semiannual q := by
  unfold ear_from_semiannual
  nlinarith [sq_nonneg (q / 200)]

lemma one_add_ear_eq_sq (q : ℝ) :
    1 + ear_from_semiannual q = (1 + q / 200) ^ 2 := by
  unfold ear_from_semiannual
  ring

lemma periodic_rate_nonneg {q : ℝ} (hq : 0 ≤ q) (ppy : ℕ) :
    0 ≤ periodic_rate q ppy := by
  unfold periodic_rate
  have h1 : (1 : ℝ) ≤ 1 + ear_from_semiannual q := by
    have := ear_nonneg hq
    linarith
  have h2 : (1 : ℝ) = (1 : ℝ) ^ ((1 : ℝ) / (ppy : ℝ)) := (Real.one_rpow _).symm
  have h3 : (1 : ℝ) ^ ((1 : ℝ) / (ppy : ℝ)) ≤
      (1 + ear_from_semiannual q) ^ ((1 : ℝ) / (ppy : ℝ)) :=
    Real.rpow_le_rpow (by norm_num) h1 (by positivity)
  linarith [h2 ▸ h3]

lemma compound_periodic (q : ℝ) {ppy : ℕ} (h : ppy ≠ 0) :
    (1 + periodic_rate q ppy) ^ ppy = 1 + ear_from_semiannual q := by
  have hbase : (0 : ℝ) ≤ 1 + ear_from_semiannual q := by
    rw [one_add_ear_eq_sq]
    positivity
  have e : 1 + periodic_rate q ppy =
      (1 + ear_from_semiannual q) ^ ((1 : ℝ) / (ppy : ℝ)) := by
    unfold periodic_rate
    ring
  have hp : ((ppy : ℕ) : ℝ) ≠ 0 := Nat.cast_ne_zero.mpr h
  rw [e, ← Real.rpow_natCast
    ((1 + ear_from_semiannual q) ^ ((1 : ℝ) / (ppy : ℝ))) ppy,
    ← Real.rpow_mul hbase,
    show ((1 : ℝ) / (ppy : ℝ)) * ((ppy : ℕ) : ℝ) = 1 by field_simp,
    Real.rpow_one]

lemma periodic_rate_q0 (ppy : ℕ) : periodic_rate 0 ppy = 0 := by
  unfold periodic_rate
  rw [show 1 + ear_from_semiannual 0 = 1 by unfold ear_from_semiannual; norm_num,
    Real.one_rpow]
  ring

lemma clampYears_idem (y a : ℤ) :
    clampYears (clampYears y a) a = clampYears y a := by
  unfold clampYears
  simp only [min_def, max_def]
  split_ifs <;> omega

lemma clampYears_nonpos {y : ℤ} (a : ℤ) (hy : y ≤ 0) :
    clampYears y a = clampYears 1 a := by
  unfold clampYears
  simp only [min_def, max_def]
  split_ifs <;> omega

lemma clampYears_ge {y a : ℤ} (h : a ≤ y) : clampYears y a = clampYears a a := by
  unfold clampYears
  simp only [min_def, max_def]
  split_ifs <;> omega

lemma scheduleRows_clamp (q : ℝ) (a : ℤ) (p : ℝ) (ppy : ℕ) (pay : ℝ) (y : ℤ) :
    scheduleRows q a p ppy pay (clampYears y a) = scheduleRows q a p ppy pay y := by
  unfold scheduleRows
  rw [clampYears_idem]

lemma schedules_congr {q : ℝ} {a : ℤ} {p : ℝ} {y z : ℤ}
    (h : clampYears y a = clampYears z a) :
    schedules q a p y = schedules q a p z := by
  unfold schedules
  rw [h]

lemma annuity_q0 : annuity_payment 3.012 (periodic_rate 0 12) (1 * 12) = 0.251 := by
  rw [periodic_rate_q0]
  unfold annuity_payment
  rw [if_pos rfl]
  push_cast
  norm_num

lemma c5_monthly : (payments 0 1 3.012).monthly = 0.25 := by
  show round2 (annuity_payment 3.012 (periodic_rate 0 12) (1 * 12)) = 0.25
  rw [annuity_q0, round2_eq_of_lt (m := 25) (by norm_num) (by norm_num)]
  norm_num

lemma c5_accel : (payments 0 1 3.012).accelBiWeekly = 0.13 := by
  show round2 (annuity_payment 3.012 (periodic_rate 0 12) (1 * 12) / 2) = 0.13
  rw [annuity_q0, round2_eq_of_gt (m := 12) (by norm_num) (by norm_num)]
  norm_num

lemma c5_claimed : round2 ((0.25 : ℝ) / 2) = 0.12 := by
  rw [round2_tie_even (m := 12) (by norm_num) (by decide)]
  norm_num

lemma ear_q7 : 1 + ear_from_semiannual (200 * ((1.004 : ℝ) ^ (6 : ℕ) - 1)) =
    (1.004 : ℝ) ^ (12 : ℕ) := by
  rw [one_add_ear_eq_sq,
    show (1 + 200 * ((1.004 : ℝ) ^ (6 : ℕ) - 1) / 200) = (1.004 : ℝ) ^ (6 : ℕ)
      by ring, ← pow_mul]

lemma pr_q7 : periodic_rate (200 * ((1.004 : ℝ) ^ (6 : ℕ) - 1)) 12 = 0.004 := by
  unfold periodic_rate
  rw [ear_q7, ← Real.rpow_natCast (1.004 : ℝ) 12,
    ← Real.rpow_mul (by norm_num : (0 : ℝ) ≤ 1.004),
    show ((12 : ℕ) : ℝ) * ((1 : ℝ) / ((12 : ℕ) : ℝ)) = 1 by push_cast; norm_num,
    Real.rpow_one]
  norm_num

lemma ann_q7 : annuity_payment 3.386 (0.004 : ℝ) (50 * 12) =
    3.386 * ((0.004 : ℝ) / (1 - ((1.004 : ℝ) ^ (600 : ℕ))⁻¹)) := by
  unfold annuity_payment
  rw [if_neg (by norm_num : (0.004 : ℝ) ≠ 0),
    show ((50 * 12 : ℤ)) = ((600 : ℕ) : ℤ) by norm_num, zpow_neg, zpow_natCast]
  norm_num

lemma pay_q7 : (payments (200 * ((1.004 : ℝ) ^ (6 : ℕ) - 1)) 50 3.386).monthly
    = 0.01 := by
  show round2 (annuity_payment 3.386
    (periodic_rate (200 * ((1.004 : ℝ) ^ (6 : ℕ) - 1)) 12) (50 * 12)) = 0.01
  rw [pr_q7, ann_q7]
  have lo : (0.01 : ℝ) ≤ 3.386 * ((0.004 : ℝ) /
      (1 - ((1.004 : ℝ) ^ (600 : ℕ))⁻¹)) := by norm_num
  have hi2 : 3.386 * ((0.004 : ℝ) /
      (1 - ((1.004 : ℝ) ^ (600 : ℕ))⁻¹)) < 0.01499 := by norm_num
  rw [round2_eq_of_lt (m := 1) (by push_cast; linarith) (by push_cast; linarith)]
  norm_num

lemma c7_rows :
    ∃ r1 r2 : Row,
      ((schedules (200 * ((1.004 : ℝ) ^ (6 : ℕ) - 1)) 50 3.386 50).monthly).get? 1
        = some r1 ∧
      ((schedules (200 * ((1.004 : ℝ) ^ (6 : ℕ) - 1)) 50 3.386 50).monthly).get? 2
        = some r2 ∧
      r1.endBal = 3.39 ∧ r2.endBal = 3.4 := by
  have e0 : (schedules (200 * ((1.004 : ℝ) ^ (6 : ℕ) - 1)) 50 3.386 50).monthly =
      scheduleRows (200 * ((1.004 : ℝ) ^ (6 : ℕ) - 1)) 50 3.386 12
        ((payments (200 * ((1.004 : ℝ) ^ (6 : ℕ) - 1)) 50 3.386).monthly)
        (clampYears 50 50) := rfl
  have efuel : ((clampYears (clampYears 50 50) 50 * ((12 : ℕ) : ℤ)).toNat + 2)
      = 602 := by decide
  have e1 : (schedules (200 * ((1.004 : ℝ) ^ (6 : ℕ) - 1)) 50 3.386 50).monthly =
      sgo 0.004 0.01 602 0 3.386 := by
    rw [e0, pay_q7]
    unfold scheduleRows
    rw [pr_q7, efuel]
  have hnc1 : ¬ (3.386 : ℝ) < 0.01 - 3.386 * 0.004 := by norm_num
  have eb1 : (3.386 : ℝ) * (1 + 0.004) - 0.01 = 3.389544 := by norm_num
  have hnc2 : ¬ (3.389544 : ℝ) < 0.01 - 3.389544 * 0.004 := by norm_num
  have eb2 : (3.389544 : ℝ) * (1 + 0.004) - 0.01 = 3.393102176 := by norm_num
  have hnc3 : ¬ (3.393102176 : ℝ) < 0.01 - 3.393102176 * 0.004 := by norm_num
  have eb3 : (3.393102176 : ℝ) * (1 + 0.004) - 0.01 = 3.396674584704 := by
    norm_num
  have e2 : sgo (0.004 : ℝ) 0.01 602 0 3.386 =
      (rowOf 0.004 0.01 3.386 0).1 :: (rowOf 0.004 0.01 3.389544 1).1 ::
      (rowOf 0.004 0.01 3.393102176 2).1 ::
      sgo 0.004 0.01 599 3 3.396674584704 := by
    rw [show (602 : ℕ) = 601 + 1 from rfl, sgo_cons 601 0 (by norm_num),
      rowOf_snd_noclamp 0 hnc1, eb1,
      show (601 : ℕ) = 600 + 1 from rfl, sgo_cons 600 1 (by norm_num),
      rowOf_snd_noclamp 1 hnc2, eb2,
      show (600 : ℕ) = 599 + 1 from rfl, sgo_cons 599 2 (by norm_num),
      rowOf_snd_noclamp 2 hnc3, eb3]
  refine ⟨(rowOf 0.004 0.01 3.389544 1).1, (rowOf 0.004 0.01 3.393102176 2).1,
    ?_, ?_, ?_, ?_⟩
  · rw [e1, e2]
    rfl
  · rw [e1, e2]
    rfl
  · rw [rowOf_fst_endBal, rowOf_snd_noclamp 1 hnc2, eb2,
      round2_eq_of_lt (m := 339) (by norm_num) (by norm_num)]
    norm_num
  · rw [rowOf_fst_endBal, rowOf_snd_noclamp 2 hnc3, eb3,
      round2_eq_of_gt (m := 339) (by norm_num) (by norm_num)]
    norm_num

/-- Claim C1, counterexample. The claim states that level_payment(300000,
periodic_rate(5.0, 12), 300) is 1741.27 within 0.01. In fact the annuity
payment is about 1744.8150, more than 0.01 away from 1741.27, so the claim
as stated is false at its own concrete scenario. -/
theorem c1_counterexample :
    (0.01 : ℝ) < |annuity_payment 300000 (periodic_rate 5 12) 300 - 1741.27| := by
  have h := annuity_monthly_lo
  rw [show ((25 * 12 : ℤ)) = (300 : ℤ) by norm_num] at h
  rw [abs_of_pos (by linarith)]
  linarith

/-- Claim C1, amended. For principal 300000, quoted rate 5.0 and amortization
25 years: periodic_rate(5.0, 12) is within 1e-7 of 0.0041239 as claimed, but
the disclosed monthly payment is 1744.81 rather than 1741.27, and because
that rounds the exact annuity amount 1744.8150 down, the monthly schedule
over the full amortization has 301 rows rather than 300: the 300th row ends
at balance 2.93 and the extra 301st row clamps and ends at exactly 0. The
universal within-0.01-of-zero property of the original claim fails in
general and is dropped; the final emitted balance in this scenario is
exactly 0. -/
theorem c1_amended :
    |periodic_rate 5 12 - 0.0041239| ≤ 1e-7 ∧
    (payments 5 25 300000).monthly = 1744.81 ∧
    (schedules 5 25 300000 25).monthly.length = 301 ∧
    ((schedules 5 25 300000 25).monthly.getD 299 default).endBal = 2.93 ∧
    ((schedules 5 25 300000 25).monthly.getD 300 default).endBal = 0 := by
  refine ⟨?_, monthly_disclosed, c1_schedule.1, c1_schedule.2.1, c1_schedule.2.2⟩
  have h1 := pr512_lo
  have h2 := pr512_hi
  rw [abs_le]
  constructor <;> linarith

/-- Claim C2, counterexample. For principal 300000, quoted rate 5.0,
amortization 25 years and term 5 years, the monthly schedule does not have
60 rows: the loop guard k < nmax + 2 lets the loop run two extra iterations,
so it has 62 rows. -/
theorem c2_counterexample :
    ¬ (schedules 5 25 300000 5).monthly.length = 60 := by
  rw [c2_schedule.1]
  norm_num

/-- Claim C2, amended. In general the generator stops after exactly
min(term_years, amortization_years) times payments_per_year plus two rows,
not after exactly that product, or earlier only because the balance reached
the 1e-6 stopping threshold, in which case granting the loop any number of
extra iterations emits no further row: every schedule either has exactly
the cap many rows or is unchanged by raising the iteration cap. For the
concrete 5 year term on the 300000 at 5 percent, 25 year loan, the monthly
schedule has 62 rows, and the final row ends at the outstanding balance at
end of term, strictly between 0 and the original principal. -/
theorem c2_amended :
    (∀ (q : ℝ) (a : ℤ) (p : ℝ) (ppy : ℕ) (pay : ℝ) (y : ℤ),
      (scheduleRows q a p ppy pay y).length =
        (clampYears y a * (ppy : ℤ)).toNat + 2 ∨
      ∀ m : ℕ, sgo (periodic_rate q ppy) pay
          ((clampYears y a * (ppy : ℤ)).toNat + 2 + m) 0 p =
        scheduleRows q a p ppy pay y) ∧
    (schedules 5 25 300000 5).monthly.length = 62 ∧
    0 < ((schedules 5 25 300000 5).monthly.getD 61 default).endBal ∧
    ((schedules 5 25 300000 5).monthly.getD 61 default).endBal < 300000 := by
  refine ⟨?_, c2_schedule.1, c2_schedule.2.1, c2_schedule.2.2⟩
  intro q a p ppy pay y
  exact sgo_stop (periodic_rate q ppy) pay
    ((clampYears y a * (ppy : ℤ)).toNat + 2) 0 p

/-- Claim C3, confirmed. For every input, the schedule generator terminates
(it is a total function in this embedding, mirroring the bounded loop
counter of the source) and emits at most limit_years times payments_per_year
plus 2 rows, the unconditional iteration cap; when the cap is reached the
rows produced so far are returned. -/
theorem c3_cap (q : ℝ) (a : ℤ) (p : ℝ) (ppy : ℕ) (pay : ℝ) (y : ℤ) :
    (scheduleRows q a p ppy pay y).length ≤
      (clampYears y a * (ppy : ℤ)).toNat + 2 :=
  sgo_length_le (periodic_rate q ppy) pay
    ((clampYears y a * (ppy : ℤ)).toNat + 2) 0 p

/-- Claim C4, confirmed. In every period of every schedule, when the payment
minus interest exceeds the starting balance the principal component is
clamped to the starting balance, the effective payment of that row is
interest plus the starting balance and the new balance is exactly zero; and
no emitted row of any schedule has a negative ending balance. -/
theorem c4_clamp :
    (∀ (i pay bal : ℝ) (k : ℕ), bal < pay - bal * i →
      (rowOf i pay bal k).1.payment = round2 (bal * i + bal) ∧
      (rowOf i pay bal k).2 = 0) ∧
    (∀ (i pay : ℝ) (fuel k : ℕ) (bal : ℝ) (r : Row),
      r ∈ sgo i pay fuel k bal → 0 ≤ r.endBal) := by
  constructor
  · intro i pay bal k h
    exact ⟨by rw [rowOf_fst_payment, if_pos h], rowOf_snd_clamp k h⟩
  · exact fun i pay fuel k bal r h => sgo_endBal_nonneg i pay fuel k bal r h

/-- Claim C4, witness at rate 0, payment 2, balance 1: the clamp fires and
the row pays interest plus the whole balance, leaving exactly zero. -/
theorem c4_witness :
    (rowOf 0 2 1 0).1.payment = round2 (1 * 0 + 1) ∧ (rowOf 0 2 1 0).2 = 0 :=
  c4_clamp.1 0 2 1 0 (by norm_num)

/-- Claim C5, counterexample. At quoted rate 0, amortization 1 year and
principal 3.012 the unrounded monthly payment is 0.251, the PaymentSet
monthly is 0.25 and the accelerated bi-weekly amount is round(0.251/2, 2)
= 0.13, while round(monthly/2, 2) computed from the disclosed 2-decimal
monthly amount is round(0.125, 2) = 0.12. -/
theorem c5_counterexample :
    (payments 0 1 3.012).accelBiWeekly ≠
      round2 ((payments 0 1 3.012).monthly / 2) := by
  rw [c5_accel, c5_monthly, c5_claimed]
  norm_num

/-- Claim C5, amended. The accelerated amounts are the 2-decimal roundings
of half and a quarter of the UNROUNDED monthly annuity payment, not of the
disclosed rounded monthly amount; the two readings agree within one cent. -/
theorem c5_amended (q : ℝ) (a : ℤ) (p : ℝ) :
    (payments q a p).accelBiWeekly =
      round2 (annuity_payment p (periodic_rate q 12) (a * 12) / 2) ∧
    (payments q a p).accelWeekly =
      round2 (annuity_payment p (periodic_rate q 12) (a * 12) / 4) ∧
    |(payments q a p).accelBiWeekly -
      round2 ((payments q a p).monthly / 2)| ≤ 0.01 := by
  refine ⟨rfl, rfl, ?_⟩
  show |round2 (annuity_payment p (periodic_rate q 12) (a * 12) / 2) -
    round2 (round2 (annuity_payment p (periodic_rate q 12) (a * 12)) / 2)| ≤ 0.01
  have hd : |annuity_payment p (periodic_rate q 12) (a * 12) / 2 -
      round2 (annuity_payment p (periodic_rate q 12) (a * 12)) / 2| ≤ 1/400 := by
    have h1 := le_round2 (annuity_payment p (periodic_rate q 12) (a * 12))
    have h2 := round2_le (annuity_payment p (periodic_rate q 12) (a * 12))
    rw [abs_le]
    constructor <;> linarith
  have h3 := round2_dist hd
  linarith

/-- Claim C6, confirmed. For every quoted rate above zero and each supported
payment frequency, compounding the derived periodic rate that many times
reproduces the effective annual rate exactly in the real model, hence in
particular within the stated 1e-9 relative tolerance. -/
theorem c6_compound (q : ℝ) (ppy : ℕ) (hq : 0 < q)
    (hp : ppy = 12 ∨ ppy = 24 ∨ ppy = 26 ∨ ppy = 52) :
    (1 + periodic_rate q ppy) ^ ppy = 1 + ear_from_semiannual q ∧
    |(1 + periodic_rate q ppy) ^ ppy - 1 - ear_from_semiannual q| ≤
      1e-9 * ear_from_semiannual q := by
  have hne : ppy ≠ 0 := by rcases hp with h | h | h | h <;> omega
  have he := compound_periodic q hne
  refine ⟨he, ?_⟩
  rw [he, show (1 + ear_from_semiannual q - 1 - ear_from_semiannual q) = 0
    by ring, abs_zero]
  have := ear_nonneg (le_of_lt hq)
  linarith

/-- Claim C6, witness at quoted rate 5 with monthly frequency. -/
theorem c6_witness :
    (1 + periodic_rate 5 12) ^ (12 : ℕ) = 1 + ear_from_semiannual 5 :=
  (c6_compound 5 12 (by norm_num) (Or.inl rfl)).1

/-- Claim C7, counterexample. At quoted rate 200*(1.004^6 - 1), which makes
the monthly periodic rate exactly 0.004, amortization 50 years and principal
3.386, the annuity derived disclosed payment rounds down to 0.01, below the
first period interest 0.013544, so the balance grows: the emitted ending
balances of rows 2 and 3 are 3.39 and 3.40, refuting the claim that
ending_balance is non-increasing in every generated schedule. -/
theorem c7_counterexample :
    ¬ (∀ (j : ℕ) (r1 r2 : Row),
      ((schedules (200 * ((1.004 : ℝ) ^ (6 : ℕ) - 1)) 50 3.386 50).monthly).get?
        j = some r1 →
      ((schedules (200 * ((1.004 : ℝ) ^ (6 : ℕ) - 1)) 50 3.386 50).monthly).get?
        (j + 1) = some r2 →
      r2.endBal ≤ r1.endBal) := by
  intro hmono
  obtain ⟨r1, r2, h1, h2, e1, e2⟩ := c7_rows
  have := hmono 1 r1 r2 h1 h2
  rw [e1, e2] at this
  norm_num at this

/-- Claim C7, amended. Every generated schedule is well formed: period
numbers are strictly increasing starting at 1, and the emitted starting
balance of each row equals the emitted ending balance of the previous row
(both unconditionally, also when the payment does not cover the interest);
the emitted ending balance is non-increasing provided the scheduled payment
covers the first period interest (principal times periodic rate at most the
payment), a condition that the rounded annuity payment can violate. -/
theorem c7_amended (q : ℝ) (a : ℤ) (p : ℝ) (ppy : ℕ) (pay : ℝ) (y : ℤ) :
    (∀ (j : ℕ) (r : Row), (scheduleRows q a p ppy pay y).get? j = some r →
      r.period = j + 1) ∧
    (∀ (j : ℕ) (r1 r2 : Row),
      (scheduleRows q a p ppy pay y).get? j = some r1 →
      (scheduleRows q a p ppy pay y).get? (j + 1) = some r2 →
      r2.startBal = r1.endBal) ∧
    (0 ≤ q → p * periodic_rate q ppy ≤ pay →
      ∀ (j : ℕ) (r1 r2 : Row),
        (scheduleRows q a p ppy pay y).get? j = some r1 →
        (scheduleRows q a p ppy pay y).get? (j + 1) = some r2 →
        r2.endBal ≤ r1.endBal) := by
  refine ⟨?_, ?_, ?_⟩
  · intro j r h
    have := sgo_period_get (periodic_rate q ppy) pay
      ((clampYears y a * (ppy : ℤ)).toNat + 2) 0 p j r h
    omega
  · intro j r1 r2 h1 h2
    exact sgo_chain_start (periodic_rate q ppy) pay
      ((clampYears y a * (ppy : ℤ)).toNat + 2) 0 p j r1 r2 h1 h2
  · intro hq hpay j r1 r2 h1 h2
    exact (sgo_chain (periodic_rate q ppy) pay (periodic_rate_nonneg hq ppy)
      ((clampYears y a * (ppy : ℤ)).toNat + 2) 0 p hpay j r1 r2 h1 h2).2

/-- Claim C7, witness at quoted rate 0, principal 1, payment 0.5, one year:
the premises of the non-increase part hold, the schedule has two rows with
ending balances 0.50 and 0.00, and the second is at most the first. -/
theorem c7_witness :
    ((scheduleRows 0 1 1 12 0.5 1).getD 1 default).endBal ≤
      ((scheduleRows 0 1 1 12 0.5 1).getD 0 default).endBal := by
  have e0 : scheduleRows 0 1 1 12 0.5 1 =
      sgo (periodic_rate 0 12) 0.5
        ((clampYears 1 1 * ((12 : ℕ) : ℤ)).toNat + 2) 0 1 := rfl
  have e1 : scheduleRows 0 1 1 12 0.5 1 = sgo 0 0.5 14 0 1 := by
    rw [e0, periodic_rate_q0,
      show ((clampYears 1 1 * ((12 : ℕ) : ℤ)).toNat + 2) = 14 from by decide]
  have hnc1 : ¬ (1 : ℝ) < 0.5 - 1 * 0 := by norm_num
  have eb1 : (1 : ℝ) * (1 + 0) - 0.5 = 0.5 := by norm_num
  have e2 : sgo (0 : ℝ) 0.5 14 0 1 =
      (rowOf 0 0.5 1 0).1 :: sgo 0 0.5 13 1 0.5 := by
    rw [show (14 : ℕ) = 13 + 1 from rfl, sgo_cons 13 0 (by norm_num),
      rowOf_snd_noclamp 0 hnc1, eb1]
  have hnc2 : ¬ (0.5 : ℝ) < 0.5 - 0.5 * 0 := by norm_num
  have eb2 : (0.5 : ℝ) * (1 + 0) - 0.5 = 0 := by norm_num
  have e3 : sgo (0 : ℝ) 0.5 13 1 0.5 =
      (rowOf 0 0.5 0.5 1).1 :: sgo 0 0.5 12 2 0 := by
    rw [show (13 : ℕ) = 12 + 1 from rfl, sgo_cons 12 1 (by norm_num),
      rowOf_snd_noclamp 1 hnc2, eb2]
  have h0 : (scheduleRows 0 1 1 12 0.5 1).get? 0 = some (rowOf 0 0.5 1 0).1 := by
    rw [e1, e2]
    rfl
  have h1 : (scheduleRows 0 1 1 12 0.5 1).get? 1 =
      some (rowOf 0 0.5 0.5 1).1 := by
    rw [e1, e2, e3]
    rfl
  have hmono := (c7_amended 0 1 1 12 0.5 1).2.2 (by norm_num)
    (by rw [periodic_rate_q0]; norm_num) 0 _ _ h0 h1
  have g0 : (scheduleRows 0 1 1 12 0.5 1).getD 0 default =
      (rowOf 0 0.5 1 0).1 := by
    rw [e1, e2]
    rfl
  have g1 : (scheduleRows 0 1 1 12 0.5 1).getD 1 default =
      (rowOf 0 0.5 0.5 1).1 := by
    rw [e1, e2, e3]
    rfl
  rw [g0, g1]
  exact hmono

/-- Claim C8, confirmed. Each of the six schedules of the convenience call
is generated from the corresponding level payment rounded to two decimals,
the accelerated schedules from half and a quarter of the unrounded monthly
annuity amount rounded to two decimals, while the schedule generator uses
the full precision periodic rate internally. These are definitional
identities of the embedding, mirroring the source structure. -/
theorem c8_mixed (q : ℝ) (a : ℤ) (p : ℝ) (y : ℤ) :
    (payments q a p).monthly =
      round2 (annuity_payment p (periodic_rate q 12) (a * 12)) ∧
    (schedules q a p y).monthly =
      scheduleRows q a p 12 ((payments q a p).monthly) (clampYears y a) ∧
    (schedules q a p y).semiMonthly =
      scheduleRows q a p 24 ((payments q a p).semiMonthly) (clampYears y a) ∧
    (schedules q a p y).biWeekly =
      scheduleRows q a p 26 ((payments q a p).biWeekly) (clampYears y a) ∧
    (schedules q a p y).weekly =
      scheduleRows q a p 52 ((payments q a p).weekly) (clampYears y a) ∧
    (schedules q a p y).accelBiWeekly = scheduleRows q a p 26
      (round2 (annuity_payment p (periodic_rate q 12) (a * 12) / 2))
      (clampYears y a) ∧
    (schedules q a p y).accelWeekly = scheduleRows q a p 52
      (round2 (annuity_payment p (periodic_rate q 12) (a * 12) / 4))
      (clampYears y a) ∧
    (∀ (ppy : ℕ) (pay : ℝ) (z : ℤ), scheduleRows q a p ppy pay z =
      sgo (periodic_rate q ppy) pay ((clampYears z a * (ppy : ℤ)).toNat + 2)
        0 p) :=
  ⟨rfl, rfl, rfl, rfl, rfl, rfl, rfl, fun _ _ _ => rfl⟩

/-- Claim C9, counterexample. No input is rejected with an error and the raw
schedule generator does clamp silently: a years_limit of 30 with a 25 year
amortization produces exactly the same schedule as 25, and a negative
principal produces an empty schedule instead of an error. -/
theorem c9_counterexample :
    scheduleRows 0 25 1 12 0.01 30 = scheduleRows 0 25 1 12 0.01 25 ∧
    scheduleRows 0 25 (-5) 12 0.01 25 = [] := by
  constructor
  · have h : clampYears 30 25 = clampYears 25 25 := by decide
    calc scheduleRows 0 25 1 12 0.01 30
        = scheduleRows 0 25 1 12 0.01 (clampYears 30 25) :=
          (scheduleRows_clamp 0 25 1 12 0.01 30).symm
      _ = scheduleRows 0 25 1 12 0.01 (clampYears 25 25) := by rw [h]
      _ = scheduleRows 0 25 1 12 0.01 25 := scheduleRows_clamp 0 25 1 12 0.01 25
  · exact sgo_nil (by norm_num) _ 0

/-- Claim C9, amended. The source performs no input validation: the raw
schedule generator silently clamps its years_limit argument through
max(1, min(years_limit, amort_years)) exactly like the convenience call,
and a non-positive principal (at most the 1e-6 loop threshold) yields an
empty schedule rather than an error. -/
theorem c9_amended (q : ℝ) (a : ℤ) (p : ℝ) (ppy : ℕ) (pay : ℝ) (y : ℤ) :
    scheduleRows q a p ppy pay y = scheduleRows q a p ppy pay (clampYears y a) ∧
    (p ≤ 1e-6 → scheduleRows q a p ppy pay y = []) := by
  constructor
  · exact (scheduleRows_clamp q a p ppy pay y).symm
  · intro hp
    exact sgo_nil (not_lt.mpr hp) _ 0

/-- Claim C9, witness: a zero principal yields an empty schedule. -/
theorem c9_witness : scheduleRows 0 25 0 12 1 25 = [] :=
  (c9_amended 0 25 0 12 1 25).2 (by norm_num)

/-- Claim C10, confirmed. Both the convenience call and the raw generator
replace the requested years limit by max(1, min(years_limit, amort_years)):
clamping is idempotent so re-clamping changes nothing, a non-positive
request yields the 1 year schedule and a request beyond the amortization
yields the full amortization schedule; being total functions, no input
raises an error in this embedding, mirroring the exception-free source. -/
theorem c10_clamp (q : ℝ) (a : ℤ) (p : ℝ) (y : ℤ) :
    schedules q a p y = schedules q a p (clampYears y a) ∧
    (∀ (ppy : ℕ) (pay : ℝ), scheduleRows q a p ppy pay y =
      scheduleRows q a p ppy pay (clampYears y a)) ∧
    (y ≤ 0 → schedules q a p y = schedules q a p 1) ∧
    (a ≤ y → schedules q a p y = schedules q a p a) :=
  ⟨schedules_congr (clampYears_idem y a).symm,
    fun ppy pay => (scheduleRows_clamp q a p ppy pay y).symm,
    fun hy => schedules_congr (clampYears_nonpos a hy),
    fun hy => schedules_congr (clampYears_ge hy)⟩

/-- Claim C10, witness: a negative years request yields the 1 year result. -/
theorem c10_witness : schedules 0 25 100 (-3) = schedules 0 25 100 1 :=
  (c10_clamp 0 25 100 (-3)).2.2.1 (by norm_num)
